import Mathlib

/-!
Shallow embedding of `fastloop_trader.py` (Polymarket-FasteX), the
single-file trading client.  Python floats are modelled by `ℚ` (exact
field arithmetic), Python `None` by `Option`, raised-and-caught
exceptions by `Option.none` results, and network responses by explicit
response data passed as arguments.
-/

namespace FastLoop

/-- The momentum-signal dictionary returned by `get_binance_momentum` /
`get_coingecko_momentum` (keys `momentum_pct`, `direction`, `price_now`,
`price_then`, `avg_volume`, `latest_volume`, `volume_ratio`, `candles`). -/
structure Signal where
  momentum_pct : ℚ
  direction : String
  price_now : ℚ
  price_then : ℚ
  avg_volume : ℚ
  latest_volume : ℚ
  volume_ratio : ℚ
  candles : ℕ
deriving DecidableEq

/-- One kline row as consumed by `get_binance_momentum`: the fields
`row[1]` (open), `row[4]` (close) and `row[5]` (volume) after the
`float(...)` conversion; a field is `none` when `float()` would raise on
it (malformed data). -/
structure RawRow where
  openVal : Option ℚ
  closeVal : Option ℚ
  volVal : Option ℚ
deriving DecidableEq

/-- Outcome of one `requests.get` attempt against one Binance base URL:
an exception / HTTP error (`failure`), a 429 rate-limit response
(`rateLimited`, which the code sleeps on and skips), or a parsed JSON
candle list (`ok`). -/
inductive KlinesResponse where
  | failure
  | rateLimited
  | ok (rows : List RawRow)
deriving DecidableEq

/-- The comprehension `[float(c[5]) for c in candles]`: collects every
row's volume, failing (raised `ValueError`, caught by the attempt) if
any row's volume field does not parse. -/
def parseVolumes : List RawRow → Option (List ℚ)
  | [] => some []
  | r :: rest =>
    match r.volVal, parseVolumes rest with
    | some v, some vs => some (v :: vs)
    | _, _ => none

/-- The body of the per-URL `try` block of `get_binance_momentum` after a
response was obtained: `none` models every path on which the attempt is
abandoned (`continue`), namely HTTP failure, 429, fewer than 2 candles,
a `float()` failure on a used field, or the `ZeroDivisionError` raised
when the oldest open price is `0`. -/
def processAttempt : KlinesResponse → Option Signal
  | .failure => none
  | .rateLimited => none
  | .ok rows =>
    if rows.length < 2 then none
    else
      match rows.head?.bind RawRow.openVal, (rows.getLast?).bind RawRow.closeVal,
            parseVolumes rows with
      | some price_then, some price_now, some volumes =>
        if price_then = 0 then none
        else
          let momentum_pct : ℚ := ((price_now - price_then) / price_then) * 100
          let direction : String := if 0 < momentum_pct then "up" else "down"
          let avg_volume : ℚ := volumes.sum / (volumes.length : ℚ)
          match volumes.getLast? with
          | none => none
          | some latest_volume =>
            let volume_ratio : ℚ :=
              if 0 < avg_volume then latest_volume / avg_volume else 1
            some ⟨momentum_pct, direction, price_now, price_then,
                  avg_volume, latest_volume, volume_ratio, rows.length⟩
      | _, _, _ => none

/-- `get_binance_momentum`: iterate over the base URLs (one
`KlinesResponse` per URL, in order); the first attempt that yields a
signal is returned, otherwise the loop falls through to `return None`.
The function is total: every exception in the Python body is caught by
the per-attempt `except` and modelled inside `processAttempt`. -/
def get_binance_momentum : List KlinesResponse → Option Signal
  | [] => none
  | r :: rest =>
    match processAttempt r with
    | some s => some s
    | none => get_binance_momentum rest

/-- A failed-or-bad attempt, as the claim enumerates them: the request
failed (or was rate limited), the data was malformed (a used field does
not parse as a float, or the oldest open price is zero so the momentum
division raises), or fewer than 2 candles were returned. -/
def attemptBad : KlinesResponse → Bool
  | .failure => true
  | .rateLimited => true
  | .ok rows =>
    decide (rows.length < 2)
    || decide (rows.head?.bind RawRow.openVal = none)
    || decide (rows.head?.bind RawRow.openVal = some 0)
    || decide ((rows.getLast?).bind RawRow.closeVal = none)
    || decide (parseVolumes rows = none)

lemma processAttempt_eq_none_of_bad (r : KlinesResponse) (h : attemptBad r = true) :
    processAttempt r = none := by
  cases r with
  | failure => rfl
  | rateLimited => rfl
  | ok rows =>
    simp only [attemptBad, Bool.or_eq_true, decide_eq_true_eq] at h
    simp only [processAttempt]
    by_cases hlen : rows.length < 2
    · simp [hlen]
    · rw [if_neg hlen]
      rcases ho : rows.head?.bind RawRow.openVal with _ | o <;>
        rcases hc : (rows.getLast?).bind RawRow.closeVal with _ | c <;>
          rcases hv : parseVolumes rows with _ | v <;> try rfl
      have ho0 : o = 0 := by
        rcases h with ((((h | h) | h) | h) | h)
        · exact absurd h hlen
        · rw [ho] at h; cases h
        · rw [ho] at h; exact Option.some.inj h
        · rw [hc] at h; cases h
        · rw [hv] at h; cases h
      simp [ho0]

/-- Demo input for witnesses: two well-formed candles with equal oldest
open and latest close (zero momentum, exercising the boundary). -/
def demoRows : List RawRow :=
  [⟨some 100, some 100, some 10⟩, ⟨some 101, some 100, some 14⟩]

/-- The signal `get_binance_momentum` computes on `demoRows`. -/
def demoSig : Signal :=
  ⟨0, "down", 100, 100, 12, 14, 7/6, 2⟩

/-- C8: if every endpoint attempt fails, is rate-limited, returns
malformed data, or returns fewer than 2 candles, the candle-based
provider returns `none` (a null signal, not a zero-momentum one); it is
a total function, so it never raises to the caller. -/
theorem binance_allFail_returns_null (responses : List KlinesResponse)
    (h : ∀ r ∈ responses, attemptBad r = true) :
    get_binance_momentum responses = none := by
  induction responses with
  | nil => rfl
  | cons r rest ih =>
    simp only [get_binance_momentum]
    rw [processAttempt_eq_none_of_bad r (h r (by simp))]
    exact ih fun r' hr' => h r' (by simp [hr'])

/-- Witness for C8: a run whose three attempts are a network failure, a
429 response, and an empty candle list yields a null signal. -/
theorem binance_allFail_returns_null_witness :
    get_binance_momentum
      [.failure, .rateLimited, .ok [⟨none, some 1, some 2⟩]] = none :=
  binance_allFail_returns_null
    [.failure, .rateLimited, .ok [⟨none, some 1, some 2⟩]] (by decide)

/-- C1: on every accepted candle sequence (at least 2 candles), the
returned `momentum_pct` is `(close of most recent − open of oldest) /
open of oldest × 100`, and `direction` is `"up"` iff `momentum_pct > 0`,
with `momentum_pct = 0` classified as `"down"`. -/
theorem momentum_formula_and_direction (rows : List RawRow) (sig : Signal)
    (h : processAttempt (.ok rows) = some sig) :
    2 ≤ rows.length ∧
    ∃ pThen pNow, rows.head?.bind RawRow.openVal = some pThen ∧
      (rows.getLast?).bind RawRow.closeVal = some pNow ∧
      sig.momentum_pct = (pNow - pThen) / pThen * 100 ∧
      (sig.direction = "up" ↔ 0 < sig.momentum_pct) ∧
      (sig.momentum_pct = 0 → sig.direction = "down") := by
  simp only [processAttempt] at h
  split at h
  · cases h
  rename_i hlen
  rcases ho : rows.head?.bind RawRow.openVal with _ | pThen <;> rw [ho] at h
  · cases h
  rcases hc : (rows.getLast?).bind RawRow.closeVal with _ | pNow <;> rw [hc] at h
  · cases h
  rcases hv : parseVolumes rows with _ | volumes <;> rw [hv] at h
  · cases h
  simp only at h
  split at h
  · cases h
  rcases hl : volumes.getLast? with _ | latest <;> rw [hl] at h
  · cases h
  have hsig : _ = sig := Option.some.inj h
  subst hsig
  refine ⟨by omega, pThen, pNow, rfl, rfl, rfl, ?_, ?_⟩
  · show (if 0 < (pNow - pThen) / pThen * 100 then "up" else "down") = "up" ↔
      0 < (pNow - pThen) / pThen * 100
    split
    · rename_i hm; exact iff_of_true rfl hm
    · rename_i hm; exact iff_of_false (by decide) hm
  · intro h0
    have h0' : (pNow - pThen) / pThen * 100 = 0 := h0
    show (if 0 < (pNow - pThen) / pThen * 100 then "up" else "down") = "down"
    rw [h0']
    simp

/-- Witness for C1 at the zero-momentum boundary: `demoRows` has equal
oldest open and latest close, so the momentum is 0 and the direction is
classified as "down". -/
theorem momentum_formula_and_direction_witness :
    2 ≤ demoRows.length ∧
    ∃ pThen pNow, demoRows.head?.bind RawRow.openVal = some pThen ∧
      (demoRows.getLast?).bind RawRow.closeVal = some pNow ∧
      demoSig.momentum_pct = (pNow - pThen) / pThen * 100 ∧
      (demoSig.direction = "up" ↔ 0 < demoSig.momentum_pct) ∧
      (demoSig.momentum_pct = 0 → demoSig.direction = "down") :=
  momentum_formula_and_direction demoRows demoSig (by
    simp only [demoRows, demoSig, processAttempt, parseVolumes,
      List.head?_cons, List.getLast?_cons_cons, List.getLast?_singleton,
      Option.bind_some, List.length_cons, List.length_nil, List.sum_cons,
      List.sum_nil]
    norm_num)

/-- C4: on every accepted candle sequence, `volume_ratio` is the latest
volume divided by the average volume when that average is strictly
positive, and exactly 1 when the average is zero; the division is
guarded, never performed with a zero divisor. -/
theorem volume_ratio_guarded (rows : List RawRow) (sig : Signal)
    (h : processAttempt (.ok rows) = some sig) :
    (0 < sig.avg_volume → sig.volume_ratio = sig.latest_volume / sig.avg_volume) ∧
    (sig.avg_volume = 0 → sig.volume_ratio = 1) ∧
    ∃ volumes, parseVolumes rows = some volumes ∧
      sig.avg_volume = volumes.sum / (volumes.length : ℚ) ∧
      volumes.getLast? = some sig.latest_volume := by
  simp only [processAttempt] at h
  split at h
  · cases h
  rcases ho : rows.head?.bind RawRow.openVal with _ | pThen <;> rw [ho] at h
  · cases h
  rcases hc : (rows.getLast?).bind RawRow.closeVal with _ | pNow <;> rw [hc] at h
  · cases h
  rcases hv : parseVolumes rows with _ | volumes <;> rw [hv] at h
  · cases h
  simp only at h
  split at h
  · cases h
  rcases hl : volumes.getLast? with _ | latest <;> rw [hl] at h
  · cases h
  have hsig : _ = sig := Option.some.inj h
  subst hsig
  refine ⟨?_, ?_, volumes, rfl, rfl, hl⟩
  · intro hpos
    have hpos' : 0 < volumes.sum / (volumes.length : ℚ) := hpos
    show (if 0 < volumes.sum / (volumes.length : ℚ)
        then latest / (volumes.sum / (volumes.length : ℚ)) else 1) =
      latest / (volumes.sum / (volumes.length : ℚ))
    rw [if_pos hpos']
  · intro hzero
    have hz : volumes.sum / (volumes.length : ℚ) = 0 := hzero
    show (if 0 < volumes.sum / (volumes.length : ℚ)
        then latest / (volumes.sum / (volumes.length : ℚ)) else 1) = 1
    rw [hz]
    simp

/-- Witness for C4: on `demoRows` the average volume is 12 > 0 and the
ratio is 14/12 = 7/6. -/
theorem volume_ratio_guarded_witness :
    (0 < demoSig.avg_volume →
      demoSig.volume_ratio = demoSig.latest_volume / demoSig.avg_volume) ∧
    (demoSig.avg_volume = 0 → demoSig.volume_ratio = 1) ∧
    ∃ volumes, parseVolumes demoRows = some volumes ∧
      demoSig.avg_volume = volumes.sum / (volumes.length : ℚ) ∧
      volumes.getLast? = some demoSig.latest_volume :=
  volume_ratio_guarded demoRows demoSig (by
    simp only [demoRows, demoSig, processAttempt, parseVolumes,
      List.head?_cons, List.getLast?_cons_cons, List.getLast?_singleton,
      Option.bind_some, List.length_cons, List.length_nil, List.sum_cons,
      List.sum_nil]
    norm_num)

/-- Outcome of the CoinGecko simple-price request as seen by
`get_coingecko_momentum`: a failed request / error response
(`failure`, the `not result or ... error` guard), or a parsed JSON
body whose `result.get(asset, {}).get("usd")` value is `price`
(`none` when the key is absent). -/
inductive PriceResponse where
  | failure
  | ok (price : Option ℚ)
deriving DecidableEq

/-- `get_coingecko_momentum`: the spot-price fallback provider. Note the
Python guard `if not price_now: return None` is also taken when the
price is present but equal to `0` (falsy float). -/
def get_coingecko_momentum (resp : PriceResponse) : Option Signal :=
  match resp with
  | .failure => none
  | .ok none => none
  | .ok (some price_now) =>
    if price_now = 0 then none
    else some ⟨0, "neutral", price_now, price_now, 0, 0, 1, 0⟩

/-- C9 counterexample: a successful fetch whose parsed price is `0` is a
successful fetch with a present (non-missing) price, yet the provider
returns a null signal instead of the neutral signal the claim promises
(`not price_now` is true for the float `0.0`). -/
theorem coingecko_zero_price_returns_null :
    get_coingecko_momentum (.ok (some 0)) = none := by
  simp [get_coingecko_momentum]

/-- C9 as amended: on a successful fetch with a nonzero price the signal
has momentum exactly 0, direction "neutral", volume ratio exactly 1 and
`price_then = price_now`; on a fetch failure, a missing price, or a

zero price it returns a null signal. -/
theorem coingecko_signal_shape :
    (∀ p : ℚ, p ≠ 0 → ∃ sig, get_coingecko_momentum (.ok (some p)) = some sig ∧
      sig.momentum_pct = 0 ∧ sig.direction = "neutral" ∧
      sig.volume_ratio = 1 ∧ sig.price_then = sig.price_now ∧ sig.price_now = p)
    ∧ get_coingecko_momentum .failure = none
    ∧ get_coingecko_momentum (.ok none) = none
    ∧ get_coingecko_momentum (.ok (some 0)) = none := by
  refine ⟨?_, rfl, rfl, by simp [get_coingecko_momentum]⟩
  intro p hp
  refine ⟨⟨0, "neutral", p, p, 0, 0, 1, 0⟩, ?_, rfl, rfl, rfl, rfl, rfl⟩
  simp [get_coingecko_momentum, hp]

/-- Witness for C9 (amended) at price 72000. -/
theorem coingecko_signal_shape_witness :
    ∃ sig, get_coingecko_momentum (.ok (some 72000)) = some sig ∧
      sig.momentum_pct = 0 ∧ sig.direction = "neutral" ∧
      sig.volume_ratio = 1 ∧ sig.price_then = sig.price_now ∧
      sig.price_now = 72000 :=
  coingecko_signal_shape.1 72000 (by norm_num)

/-- `ASSET_SYMBOLS`: asset → Binance symbol mapping. -/
def ASSET_SYMBOLS : List (String × String) :=
  [("BTC", "BTCUSDT"), ("ETH", "ETHUSDT"), ("SOL", "SOLUSDT")]

/-- `COINGECKO_ASSETS`: asset → CoinGecko id mapping. -/
def COINGECKO_ASSETS : List (String × String) :=
  [("BTC", "bitcoin"), ("ETH", "ethereum"), ("SOL", "solana")]

/-- `get_momentum`: the momentum dispatcher.  The network is abstracted
by the argument functions `klines` (responses of the three Binance base
URLs for a symbol and lookback) and `spot` (CoinGecko response for an
id); the dict `.get(asset, default)` calls become `lookup` + `getD`. -/
def get_momentum (klines : String → ℕ → List KlinesResponse)
    (spot : String → PriceResponse) (asset source : String) (lookback : ℕ) :
    Option Signal :=
  if source = "binance" then
    get_binance_momentum (klines ((ASSET_SYMBOLS.lookup asset).getD "BTCUSDT") lookback)
  else if source = "coingecko" then
    get_coingecko_momentum (spot ((COINGECKO_ASSETS.lookup asset).getD "bitcoin"))
  else none

/-- C10: a signal source other than "binance" or "coingecko" yields a
null signal (no fallback to a default source, no exception); an asset
missing from the mapping tables falls back to the BTC trading pair
("BTCUSDT") or CoinGecko id ("bitcoin") of the selected source. -/
theorem dispatcher_unknown_source_null :
    (∀ klines spot asset source lookback, source ≠ "binance" →
      source ≠ "coingecko" → get_momentum klines spot asset source lookback = none)
    ∧ (∀ klines spot asset lookback, ASSET_SYMBOLS.lookup asset = none →
      get_momentum klines spot asset "binance" lookback =
        get_binance_momentum (klines "BTCUSDT" lookback))
    ∧ (∀ klines spot asset lookback, COINGECKO_ASSETS.lookup asset = none →
      get_momentum klines spot asset "coingecko" lookback =
        get_coingecko_momentum (spot "bitcoin")) := by
  refine ⟨?_, ?_, ?_⟩
  · intro klines spot asset source lookback h1 h2
    simp [get_momentum, h1, h2]
  · intro klines spot asset lookback h
    simp [get_momentum, h]
  · intro klines spot asset lookback h
    simp [get_momentum, h]

/-- Witness for C10: the unrecognized source "kraken" with the
unrecognized asset "DOGE" yields a null signal. -/
theorem dispatcher_unknown_source_null_witness :
    get_momentum (fun _ _ => []) (fun _ => .failure) "DOGE" "kraken" 5 = none :=
  dispatcher_unknown_source_null.1 (fun _ _ => []) (fun _ => .failure)
    "DOGE" "kraken" 5 (by decide) (by decide)

/-- A fast-market record as built by `discover_fast_market_markets`
(keys `question`, `slug`, `condition_id`, `end_time`, `outcomes`,
`outcome_prices`, `fee_rate_bps`), parametric in the representation `τ`
of the parsed end time. -/
structure FMarketT (τ : Type) where
  question : String
  slug : String
  condition_id : String
  end_time : Option τ
  outcomes : List String
  outcome_prices : String
  fee_rate_bps : ℤ
deriving DecidableEq

/-- `candidates.sort(key=lambda x: x[0])` followed by `candidates[0]`:
Python's sort is stable and ascending, so the head of the sorted list is
the first element with minimal remaining time, which this fold
computes. -/
def pickSoonest (c : ℚ × FMarketT ℚ) (cs : List (ℚ × FMarketT ℚ)) :
    ℚ × FMarketT ℚ :=
  cs.foldl (fun best x => if x.1 < best.1 then x else best) c

lemma pickSoonest_cons (c x : ℚ × FMarketT ℚ) (xs : List (ℚ × FMarketT ℚ)) :
    pickSoonest c (x :: xs) = pickSoonest (if x.1 < c.1 then x else c) xs := rfl

lemma pickSoonest_mem (cs : List (ℚ × FMarketT ℚ)) (c : ℚ × FMarketT ℚ) :
    pickSoonest c cs = c ∨ pickSoonest c cs ∈ cs := by
  induction cs generalizing c with
  | nil => exact Or.inl rfl
  | cons x xs ih =>
    rw [pickSoonest_cons]
    rcases ih (if x.1 < c.1 then x else c) with h | h
    · rw [h]
      split
      · exact Or.inr (List.mem_cons_self x xs)
      · exact Or.inl rfl
    · exact Or.inr (List.mem_cons_of_mem x h)

lemma pickSoonest_le (cs : List (ℚ × FMarketT ℚ)) (c : ℚ × FMarketT ℚ) :
    (pickSoonest c cs).1 ≤ c.1 ∧ ∀ x ∈ cs, (pickSoonest c cs).1 ≤ x.1 := by
  induction cs generalizing c with
  | nil => exact ⟨le_refl _, by simp⟩
  | cons x xs ih =>
    rw [pickSoonest_cons]
    obtain ⟨h1, h2⟩ := ih (if x.1 < c.1 then x else c)
    have hdc : (if x.1 < c.1 then x else c).1 ≤ c.1 := by
      split
      · exact le_of_lt (by assumption)
      · exact le_refl _
    have hdx : (if x.1 < c.1 then x else c).1 ≤ x.1 := by
      split
      · exact le_refl _
      · exact le_of_not_lt (by assumption)
    refine ⟨h1.trans hdc, ?_⟩
    intro y hy
    rcases List.mem_cons.mp hy with rfl | hy'
    · exact h1.trans hdx
    · exact h2 y hy'

/-- `find_best_fast_market`: drop markets whose `end_time` is null or
whose remaining lifetime `(end_time - now).total_seconds()` is not
strictly greater than `MIN_TIME_REMAINING`, then return the surviving
market with the smallest remaining lifetime, `None` when no candidate
survives.  Times are modelled as seconds (`ℚ`), so datetime subtraction
becomes rational subtraction. -/
def candidateOf (minRemaining now : ℚ) (m : FMarketT ℚ) :
    Option (ℚ × FMarketT ℚ) :=
  match m.end_time with
  | none => none
  | some t => if minRemaining < t - now then some (t - now, m) else none

def find_best_fast_market (minRemaining now : ℚ)
    (markets : List (FMarketT ℚ)) : Option (FMarketT ℚ) :=
  match markets.filterMap (candidateOf minRemaining now) with
  | [] => none
  | c :: cs => some (pickSoonest c cs).2

/-- 30-seconds-remaining market of the worked example (now = 0). -/
def mkt30 : FMarketT ℚ := ⟨"q30", "s30", "c30", some 30, [], "[]", 0⟩

/-- 90-seconds-remaining market of the worked example (now = 0). -/
def mkt90 : FMarketT ℚ := ⟨"q90", "s90", "c90", some 90, [], "[]", 0⟩

/-- 45-seconds-remaining market of the worked example (now = 0). -/
def mkt45 : FMarketT ℚ := ⟨"q45", "s45", "c45", some 45, [], "[]", 0⟩

/-- C2: a selected market survives the filter (non-null expiry,
remaining lifetime strictly above `minRemaining`) and has the smallest
remaining lifetime among all survivors; when nothing survives the
selection returns none; and on remaining lifetimes [30, 90, 45] with
`minRemaining` = 60 the 90-second market is selected. -/
theorem select_best_market :
    (∀ (minR now : ℚ) (ms : List (FMarketT ℚ)) (m : FMarketT ℚ),
      find_best_fast_market minR now ms = some m →
        m ∈ ms ∧ ∃ t, m.end_time = some t ∧ minR < t - now ∧
          ∀ m' ∈ ms, ∀ t', m'.end_time = some t' → minR < t' - now →
            t - now ≤ t' - now)
    ∧ (∀ (minR now : ℚ) (ms : List (FMarketT ℚ)),
      (∀ m ∈ ms, ∀ t, m.end_time = some t → t - now ≤ minR) →
        find_best_fast_market minR now ms = none)
    ∧ find_best_fast_market 60 0 [mkt30, mkt90, mkt45] = some mkt90 := by
  refine ⟨?_, ?_, ?_⟩
  · intro minR now ms m hm
    simp only [find_best_fast_market] at hm
    rcases hcand : ms.filterMap (candidateOf minR now) with _ | ⟨c, cs⟩ <;>
      rw [hcand] at hm
    · cases hm
    have hm' : (pickSoonest c cs).2 = m := Option.some.inj hm
    have hmem : pickSoonest c cs ∈ c :: cs := by
      rcases pickSoonest_mem cs c with h | h
      · rw [h]; exact List.mem_cons_self c cs
      · exact List.mem_cons_of_mem c h
    have hmin : ∀ x ∈ c :: cs, (pickSoonest c cs).1 ≤ x.1 := by
      intro x hx
      rcases List.mem_cons.mp hx with rfl | hx'
      · exact (pickSoonest_le _ _).1
      · exact (pickSoonest_le _ _).2 x hx'
    rw [← hcand] at hmem
    obtain ⟨m₀, hm₀, hf⟩ := List.mem_filterMap.mp hmem
    rcases ht : m₀.end_time with _ | t <;>
      simp only [candidateOf, ht] at hf
    · cases hf
    split at hf
    swap
    · cases hf
    rename_i hlt
    have hpair : (t - now, m₀) = pickSoonest c cs := Option.some.inj hf
    have hmm : m = m₀ := by rw [← hm', ← hpair]
    subst hmm
    refine ⟨hm₀, t, ht, hlt, ?_⟩
    intro m' hmem' t' ht' hlt'
    have hc' : (t' - now, m') ∈ ms.filterMap (candidateOf minR now) :=
      List.mem_filterMap.mpr ⟨m', hmem', by
        simp only [candidateOf, ht']
        rw [if_pos hlt']⟩
    rw [hcand] at hc'
    have := hmin _ hc'
    rw [← hpair] at this
    exact this
  · intro minR now ms hno
    simp only [find_best_fast_market]
    have hnil : ms.filterMap (candidateOf minR now) = [] := by
      rw [List.filterMap_eq_nil_iff]
      intro m hm
      rcases ht : m.end_time with _ | t
      · simp [candidateOf, ht]
      · have hle := hno m hm t ht
        simp [candidateOf, ht, not_lt.mpr hle]
    rw [hnil]
  · show find_best_fast_market 60 0 [mkt30, mkt90, mkt45] = some mkt90
    simp only [find_best_fast_market, candidateOf, mkt30, mkt90, mkt45,
      List.filterMap_cons, List.filterMap_nil]
    norm_num [pickSoonest]

/-- Witness for C2: applying the characterization to the worked example
shows the selected 90-second market survives the 60-second floor and is
the soonest-expiring survivor. -/
theorem select_best_market_witness :
    mkt90 ∈ [mkt30, mkt90, mkt45] ∧
    ∃ t, mkt90.end_time = some t ∧ (60 : ℚ) < t - 0 ∧
      ∀ m' ∈ [mkt30, mkt90, mkt45], ∀ t', m'.end_time = some t' →
        (60 : ℚ) < t' - 0 → t - 0 ≤ t' - 0 :=
  select_best_market.1 60 0 [mkt30, mkt90, mkt45] mkt90
    select_best_market.2.2

/-- `str.lower()` on the ASCII strings this script handles, implemented
over the character list (Lean's `String.toLower` does the same
character-wise mapping but does not evaluate in the kernel). -/
def strLower (s : String) : String := ⟨s.data.map Char.toLower⟩

/-- The Python type tag of a `CONFIG_SCHEMA` entry (`float`, `int`,
`str`, `bool`). -/
inductive PType where
  | pfloat
  | pint
  | pstr
  | pbool
deriving DecidableEq

/-- A configuration value (a Python float / int / str / bool). -/
inductive PVal where
  | vfloat (q : ℚ)
  | vint (n : ℤ)
  | vstr (s : String)
  | vbool (b : Bool)
deriving DecidableEq

/-- One `CONFIG_SCHEMA` entry: default value, environment-variable name
and expected type (`help` text omitted, it is never read). -/
structure ParamSpec where
  default : PVal
  env : String
  type : PType
deriving DecidableEq

/-- The `try: ... type_fn(val) ... except (ValueError, TypeError)` body
of `_load_config` for an environment string: the stdlib parsers
`float()` / `int()` are abstracted as the argument functions `parseFloat`
/ `parseInt` (`none` = the parse raises); `str()` of a string never
fails, and the `bool` branch computes `val.lower() in ("true", "1",
"yes")`, which never fails either. -/
def coerceEnv (t : PType) (parseFloat : String → Option ℚ)
    (parseInt : String → Option ℤ) (val : String) : Option PVal :=
  match t with
  | .pfloat => (parseFloat val).map .vfloat
  | .pint => (parseInt val).map .vint
  | .pstr => some (.vstr val)
  | .pbool => some (.vbool (["true", "1", "yes"].contains (strLower val)))

/-- Resolution of one schema parameter in `_load_config`: the config
file value when the key is present, else the environment value (note
Python's truthiness test `os.environ.get(spec["env"])` skips an
environment variable that is set to the empty string, and an empty
`env` name), with a failed coercion falling back to the default, else
the default. -/
def resolveParam (spec : ParamSpec) (fileVal : Option PVal)
    (envVal : Option String) (parseFloat : String → Option ℚ)
    (parseInt : String → Option ℤ) : PVal :=
  match fileVal with
  | some v => v
  | none =>
    if spec.env ≠ "" ∧ envVal.getD "" ≠ "" then
      match coerceEnv spec.type parseFloat parseInt (envVal.getD "") with
      | some v => v
      | none => spec.default
    else spec.default

/-- `_load_config`: iterate over the schema, resolving each key;
`fileCfg` is the parsed `config.json` mapping (empty / absent file =
`fun _ => none`) and `env` is the process environment. -/
def load_config (schema : List (String × ParamSpec))
    (fileCfg : String → Option PVal) (env : String → Option String)
    (parseFloat : String → Option ℚ) (parseInt : String → Option ℤ) :
    List (String × PVal) :=
  match schema with
  | [] => []
  | (key, spec) :: rest =>
    (key, resolveParam spec (fileCfg key) (env spec.env) parseFloat parseInt) ::
      load_config rest fileCfg env parseFloat parseInt

/-- `CONFIG_SCHEMA` of the script (defaults, env names, types). -/
def CONFIG_SCHEMA : List (String × ParamSpec) :=
  [("entry_threshold", ⟨.vfloat (5/100), "SIMMER_SPRINT_ENTRY", .pfloat⟩),
   ("min_momentum_pct", ⟨.vfloat (5/10), "SIMMER_SPRINT_MOMENTUM", .pfloat⟩),
   ("max_position", ⟨.vfloat 5, "SIMMER_SPRINT_MAX_POSITION", .pfloat⟩),
   ("signal_source", ⟨.vstr "binance", "SIMMER_SPRINT_SIGNAL", .pstr⟩),
   ("lookback_minutes", ⟨.vint 5, "SIMMER_SPRINT_LOOKBACK", .pint⟩),
   ("min_time_remaining", ⟨.vint 60, "SIMMER_SPRINT_MIN_TIME", .pint⟩),
   ("asset", ⟨.vstr "BTC", "SIMMER_SPRINT_ASSET", .pstr⟩),
   ("window", ⟨.vstr "5m", "SIMMER_SPRINT_WINDOW", .pstr⟩),
   ("volume_confidence", ⟨.vbool true, "SIMMER_SPRINT_VOL_CONF", .pbool⟩)]

/-- The `volume_confidence` schema entry (default `True`, boolean). -/
def volumeConfidenceSpec : ParamSpec :=
  ⟨.vbool true, "SIMMER_SPRINT_VOL_CONF", .pbool⟩

/-- C5 counterexample: `volume_confidence` with no config-file entry and
`SIMMER_SPRINT_VOL_CONF` set to the empty string.  The claim demands
the coerced environment value (`"" ∉ ("true","1","yes")`, i.e.
`False`), but the code's truthiness test on `os.environ.get` skips the
set-but-empty variable and returns the default `True`. -/
theorem config_env_empty_string_skipped :
    resolveParam volumeConfidenceSpec none (some "")
        (fun _ => none) (fun _ => none) = .vbool true ∧
    coerceEnv volumeConfidenceSpec.type (fun _ => none) (fun _ => none) ""
      = some (.vbool false) := by
  constructor
  · rfl
  · decide

/-- C5 as amended: the resolved value is the config-file value when the
key is present there; otherwise the type-coerced environment value when
the named environment variable is set to a non-empty string and the
coercion succeeds (boolean coercion always succeeds and is true exactly
when the value case-insensitively equals "true", "1" or "yes");
otherwise the schema default.  The last conjunct ties the per-parameter
resolution to the schema iteration of `_load_config`. -/
theorem config_resolution_order :
    (∀ spec envVal pF pI (v : PVal),
      resolveParam spec (some v) envVal pF pI = v)
    ∧ (∀ spec (s : String) pF pI w, spec.env ≠ "" → s ≠ "" →
      coerceEnv spec.type pF pI s = some w →
      resolveParam spec none (some s) pF pI = w)
    ∧ (∀ pF pI (s : String),
      coerceEnv .pbool pF pI s =
        some (.vbool (strLower s = "true" ∨ strLower s = "1" ∨ strLower s = "yes")))
    ∧ (∀ spec pF pI, resolveParam spec none none pF pI = spec.default)
    ∧ (∀ spec pF pI, resolveParam spec none (some "") pF pI = spec.default)
    ∧ (∀ schema fileCfg env pF pI key spec,
      (key, spec) ∈ schema →
        (key, resolveParam spec (fileCfg key) (env spec.env) pF pI) ∈
          load_config schema fileCfg env pF pI) := by
  refine ⟨fun _ _ _ _ _ => rfl, ?_, ?_, ?_, ?_, ?_⟩
  · intro spec s pF pI w h1 h2 hc
    simp only [resolveParam]
    rw [if_pos ⟨h1, by simpa using h2⟩]
    rw [show (some s).getD "" = s from rfl, hc]
  · intro pF pI s
    have contains_eq : ∀ t : String, (["true", "1", "yes"].contains t) =
        decide (t = "true" ∨ t = "1" ∨ t = "yes") := by
      intro t
      by_cases h1 : t = "true"
      · subst h1; decide
      by_cases h2 : t = "1"
      · subst h2; decide
      by_cases h3 : t = "yes"
      · subst h3; decide
      have b1 : (t == "true") = false := beq_eq_false_iff_ne.mpr h1
      have b2 : (t == "1") = false := beq_eq_false_iff_ne.mpr h2
      have b3 : (t == "yes") = false := beq_eq_false_iff_ne.mpr h3
      simp [List.contains, List.elem, b1, b2, b3, h1, h2, h3]
    simp only [coerceEnv, contains_eq]
  · intro spec pF pI
    simp [resolveParam]
  · intro spec pF pI
    simp [resolveParam]
  · intro schema fileCfg env pF pI key spec hmem
    induction schema with
    | nil => cases hmem
    | cons kv rest ih =>
      obtain ⟨k, sp⟩ := kv
      rcases List.mem_cons.mp hmem with heq | hmem'
      · injection heq with h1 h2
        subst h1; subst h2
        exact List.mem_cons_self _ _
      · exact List.mem_cons_of_mem _ (ih hmem')

/-- Witness for C5 (amended): with no config file, `SIMMER_SPRINT_ASSET`
set to "ETH" resolves `asset` to "ETH". -/
theorem config_resolution_order_witness :
    resolveParam ⟨.vstr "BTC", "SIMMER_SPRINT_ASSET", .pstr⟩ none (some "ETH")
      (fun _ => none) (fun _ => none) = .vstr "ETH" :=
  config_resolution_order.2.1 ⟨.vstr "BTC", "SIMMER_SPRINT_ASSET", .pstr⟩
    "ETH" (fun _ => none) (fun _ => none) (.vstr "ETH")
    (by decide) (by decide) rfl

/-- C6: when the type coercion of an environment value fails, the
resolver returns the schema default (the `except (ValueError,
TypeError)` branch); the resolver is a total function, so it never
raises, and boolean coercion never fails at all. -/
theorem config_coercion_failure_defaults :
    (∀ spec (s : String) pF pI, coerceEnv spec.type pF pI s = none →
      resolveParam spec none (some s) pF pI = spec.default)
    ∧ (∀ pF pI (s : String), coerceEnv .pbool pF pI s ≠ none) := by
  constructor
  · intro spec s pF pI hc
    simp only [resolveParam]
    split
    · rw [show (some s).getD "" = s from rfl, hc]
    · rfl
  · intro pF pI s
    simp [coerceEnv]

/-- Witness for C6: a float-typed parameter (`entry_threshold`) with an
unparsable environment value resolves to its default 0.05. -/
theorem config_coercion_failure_defaults_witness :
    resolveParam ⟨.vfloat (5/100), "SIMMER_SPRINT_ENTRY", .pfloat⟩ none
      (some "abc") (fun _ => none) (fun _ => none) = .vfloat (5/100) :=
  config_coercion_failure_defaults.1
    ⟨.vfloat (5/100), "SIMMER_SPRINT_ENTRY", .pfloat⟩ "abc"
    (fun _ => none) (fun _ => none) rfl

/-- Python's `\w` on the ASCII questions this script handles. -/
def isWordChar (c : Char) : Bool := c.isAlphanum || c = '_'

/-- Python's `\s` (ASCII whitespace characters). -/
def isPySpace (c : Char) : Bool :=
  c = ' ' || c = '\t' || c = '\n' || c = '\r' || c = '\x0b' || c = '\x0c'

/-- Match `:\d\d(?:AM|PM)` at the head of the list, returning the
matched characters and the rest. -/
def matchColonTail : List Char → Option (List Char × List Char)
  | ':' :: m1 :: m2 :: ap :: 'M' :: rest =>
    if m1.isDigit && m2.isDigit && (ap = 'A' || ap = 'P') then
      some ([':', m1, m2, ap, 'M'], rest)
    else none
  | _ => none

/-- Match `\d{1,2}:\d{2}(?:AM|PM)` at the head of the list.  The hour
quantifier is greedy: with two leading digits the colon must follow
them (backtracking to one digit would put a digit where `:` is
required), with one leading digit the colon tail starts at the second
character — exactly the regex engine's behaviour. -/
def matchTimeAt : List Char → Option (List Char × List Char)
  | c1 :: c2 :: rest =>
    if c1.isDigit then
      if c2.isDigit then
        (matchColonTail rest).map fun p => (c1 :: c2 :: p.1, p.2)
      else
        (matchColonTail (c2 :: rest)).map fun p => (c1 :: p.1, p.2)
    else none
  | _ => none

/-- Match `-\s*(\d{1,2}:\d{2}(?:AM|PM))\s*ET` at the head of the list,
returning the captured time group (group 2).  `\s*` is deterministic
because whitespace can match neither a digit nor `E`. -/
def matchDashTime (l : List Char) : Option (List Char) :=
  match l with
  | '-' :: rest =>
    match matchTimeAt (rest.dropWhile isPySpace) with
    | some (t, rest2) =>
      if (rest2.dropWhile isPySpace).take 2 = ['E', 'T'] then some t else none
    | none => none
  | _ => none

/-- The lazy `.*?-...` tail: try the dash-time-ET pattern at every
position, earliest first; `.` does not match a newline, so the scan
stops there. -/
def scanDashTime : List Char → Option (List Char)
  | [] => none
  | c :: rest =>
    match matchDashTime (c :: rest) with
    | some t => some t
    | none => if c = '\n' then none else scanDashTime rest

/-- Match `(\w+ \d+),` at the head of the list, returning group 1 split
at its space: the month word and the day digits, plus the rest after
the comma.  `\w+` and `\d+` are greedy and admit no backtracking here,
since the literal that follows each (space / comma) can never match a
word / digit character. -/
def matchPrefixAt (l : List Char) :
    Option (List Char × List Char × List Char) :=
  let w := l.takeWhile isWordChar
  let r1 := l.dropWhile isWordChar
  if w = [] then none
  else
    match r1 with
    | ' ' :: r2 =>
      let d := r2.takeWhile Char.isDigit
      let r3 := r2.dropWhile Char.isDigit
      if d = [] then none
      else
        match r3 with
        | ',' :: r4 => some (w, d, r4)
        | _ => none
    | _ => none

/-- `re.search(r"(\w+ \d+),.*?-\s*(\d{1,2}:\d{2}(?:AM|PM))\s*ET", q)`:
try every start position from the left (leftmost match), returning
group 1 split at its space together with group 2. -/
def reSearch : List Char → Option (List Char × List Char × List Char)
  | [] => none
  | c :: rest =>
    match matchPrefixAt (c :: rest) with
    | some (w, d, after) =>
      match scanDashTime after with
      | some t => some (w, d, t)
      | none => reSearch rest
    | none => reSearch rest

/-- The full month names matched (case-insensitively) by strptime's
`%B`, with their month numbers. -/
def MONTHS : List (String × ℕ) :=
  [("january", 1), ("february", 2), ("march", 3), ("april", 4),
   ("may", 5), ("june", 6), ("july", 7), ("august", 8),
   ("september", 9), ("october", 10), ("november", 11), ("december", 12)]

/-- strptime `%B` on the extracted month word (a maximal `\w+` run
followed by a space in the format string, so the word must equal a full
month name up to case). -/
def parseMonth (w : List Char) : Option ℕ :=
  MONTHS.lookup (String.mk (w.map Char.toLower))

def digitsToNat (l : List Char) : ℕ :=
  l.foldl (fun a c => a * 10 + (c.toNat - 48)) 0

/-- strptime `%d` on the extracted day digits (a maximal `\d+` run
followed by a space): accepts `[1-9]` or two digits `01`..`31`
(`3[01]|[12]\d|0[1-9]`); `00` and runs of three or more digits make the
whole format fail. -/
def parseDay (l : List Char) : Option ℕ :=
  if l.length = 1 ∧ 1 ≤ digitsToNat l then some (digitsToNat l)
  else if l.length = 2 ∧ 1 ≤ digitsToNat l ∧ digitsToNat l ≤ 31 then
    some (digitsToNat l)
  else none

/-- strptime `%I:%M%p` on the captured time group (shaped
`\d{1,2}:\d{2}(AM|PM)` by the search regex): hour 1..12 (a two-digit
`00` fails), minutes 00..59 (a first minute digit above 5 makes the
format fail), plus the AM/PM flag. -/
def parseTimeChars : List Char → Option (ℕ × ℕ × Bool)
  | [d1, d2, ':', m1, m2, ap, 'M'] =>
    if d1.isDigit && d2.isDigit && m1.isDigit && m2.isDigit then
      let h := digitsToNat [d1, d2]
      let m := digitsToNat [m1, m2]
      if 1 ≤ h ∧ h ≤ 12 ∧ m ≤ 59 then some (h, m, ap = 'P') else none
    else none
  | [d1, ':', m1, m2, ap, 'M'] =>
    if d1.isDigit && m1.isDigit && m2.isDigit then
      let h := digitsToNat [d1]
      let m := digitsToNat [m1, m2]
      if 1 ≤ h ∧ m ≤ 59 then some (h, m, ap = 'P') else none
    else none
  | _ => none

def isLeapYear (y : ℕ) : Bool :=
  y % 4 = 0 && (y % 100 ≠ 0 || y % 400 = 0)

def daysInMonth (y m : ℕ) : ℕ :=
  if m = 2 then (if isLeapYear y then 29 else 28)
  else if m = 4 ∨ m = 6 ∨ m = 9 ∨ m = 11 then 30
  else 31

/-- A wall-clock `datetime.datetime` value (the script only ever builds
whole-minute times). -/
structure PyDateTime where
  year : ℕ
  month : ℕ
  day : ℕ
  hour : ℕ
  minute : ℕ
deriving DecidableEq

/-- `datetime.strptime(f"{date_str} {year} {time_str}",
"%B %d %Y %I:%M%p")` followed by the 12-hour → 24-hour conversion and
the `datetime` constructor's day-of-month validation; `%Y` requires
exactly four digits, so the interpolated year must lie in 1000..9999. -/
def strptimeModel (mw dd tc : List Char) (year : ℕ) : Option PyDateTime :=
  if year < 1000 ∨ 9999 < year then none
  else
    match parseMonth mw, parseDay dd, parseTimeChars tc with
    | some month, some day, some (h12, minute, isPM) =>
      let hour := if isPM then (if h12 = 12 then 12 else h12 + 12)
                  else (if h12 = 12 then 0 else h12)
      if day ≤ daysInMonth year month then
        some ⟨year, month, day, hour, minute⟩
      else none
    | _, _, _ => none

/-- `+ timedelta(hours=5)` on a wall-clock datetime: at most one day of
calendar rollover. -/
def addFiveHours (dt : PyDateTime) : PyDateTime :=
  if dt.hour + 5 < 24 then ⟨dt.year, dt.month, dt.day, dt.hour + 5, dt.minute⟩
  else if dt.day + 1 ≤ daysInMonth dt.year dt.month then
    ⟨dt.year, dt.month, dt.day + 1, dt.hour + 5 - 24, dt.minute⟩
  else if dt.month = 12 then ⟨dt.year + 1, 1, 1, dt.hour + 5 - 24, dt.minute⟩
  else ⟨dt.year, dt.month + 1, 1, dt.hour + 5 - 24, dt.minute⟩

/-- `_parse_fast_market_end_time`: regex search over the question,
strptime with the current year, then "ET → UTC" conversion by adding
exactly 5 hours (a rollover past `datetime.MAXYEAR = 9999` would raise
the caught `OverflowError`, i.e. yield None). -/
def parse_fast_market_end_time (question : String) (year : ℕ) :
    Option PyDateTime :=
  match reSearch question.data with
  | none => none
  | some (mw, dd, tc) =>
    match strptimeModel mw dd tc year with
    | none => none
    | some et =>
      if 9999 < (addFiveHours et).year then none else some (addFiveHours et)

/-- C3: parsing "Bitcoin Up or Down - February 15, 5:30AM-5:35AM ET"
with the current year yields February 15, 10:35:00 UTC (the 5:35AM
window end plus the fixed 5-hour offset, no daylight-saving
adjustment); and every parsed timestamp is the strptime'd window end
time plus exactly 5 hours. -/
theorem parse_end_time_example (year : ℕ) (h1 : 1000 ≤ year)
    (h2 : year ≤ 9999) :
    parse_fast_market_end_time
        "Bitcoin Up or Down - February 15, 5:30AM-5:35AM ET" year =
      some ⟨year, 2, 15, 10, 35⟩ ∧
    ∀ q y dt, parse_fast_market_end_time q y = some dt →
      ∃ mw dd tc et, reSearch q.data = some (mw, dd, tc) ∧
        strptimeModel mw dd tc y = some et ∧ dt = addFiveHours et := by
  constructor
  · have hs : reSearch
        ("Bitcoin Up or Down - February 15, 5:30AM-5:35AM ET").data =
        some ("February".data, "15".data, "5:35AM".data) := by decide
    have hm : parseMonth ("February".data) = some 2 := by decide
    have hd : parseDay ("15".data) = some 15 := by decide
    have ht : parseTimeChars ("5:35AM".data) = some (5, 35, false) := by decide
    have hdim : 15 ≤ daysInMonth year 2 := by
      unfold daysInMonth
      split
      · split <;> omega
      · split <;> omega
    have hy : ¬ 9999 < year := by omega
    simp only [parse_fast_market_end_time, hs, strptimeModel]
    rw [if_neg (by omega)]
    simp only [hm, hd, ht]
    rw [if_pos hdim]
    norm_num [addFiveHours, hy]
  · intro q y dt h
    simp only [parse_fast_market_end_time] at h
    revert h
    cases hs : reSearch q.data with
    | none => intro h; simp at h
    | some g =>
      obtain ⟨mw, dd, tc⟩ := g
      intro h
      change (match strptimeModel mw dd tc y with
        | none => none
        | some et => if 9999 < (addFiveHours et).year then none
            else some (addFiveHours et)) = some dt at h
      cases hst : strptimeModel mw dd tc y with
      | none => rw [hst] at h; simp at h
      | some et =>
        rw [hst] at h
        refine ⟨mw, dd, tc, et, rfl, hst, ?_⟩
        change (if 9999 < (addFiveHours et).year then none
          else some (addFiveHours et)) = some dt at h
        split at h
        · cases h
        · exact (Option.some.inj h).symm

/-- Witness for C3 at year 2026. -/
theorem parse_end_time_example_witness :
    parse_fast_market_end_time
        "Bitcoin Up or Down - February 15, 5:30AM-5:35AM ET" 2026 =
      some ⟨2026, 2, 15, 10, 35⟩ ∧
    ∀ q y dt, parse_fast_market_end_time q y = some dt →
      ∃ mw dd tc et, reSearch q.data = some (mw, dd, tc) ∧
        strptimeModel mw dd tc y = some et ∧ dt = addFiveHours et :=
  parse_end_time_example 2026 (by norm_num) (by norm_num)

/-- List-prefix test (Python substring search helper). -/
def isPrefixL : List Char → List Char → Bool
  | [], _ => true
  | _ :: _, [] => false
  | a :: as, b :: bs => a = b && isPrefixL as bs

/-- Contiguous-substring test on character lists: `n` occurs as a prefix
at some position of `h`. -/
def containsSub : List Char → List Char → Bool
  | [], n => isPrefixL n []
  | c :: t, n => isPrefixL n (c :: t) || containsSub t n

/-- Python's `needle in hay` on strings (substring containment). -/
def strContains (hay needle : String) : Bool :=
  containsSub hay.data needle.data

/-- A raw market object of the Gamma listing JSON as read by
`discover_fast_market_markets` through `m.get(...)` (`none` = key
absent; `closed` defaults to `False`). -/
structure RawMarket where
  question : Option String
  slug : Option String
  conditionId : Option String
  closed : Bool
  outcomes : List String
  outcomePrices : Option String
  fee_rate_bps : Option ℤ
  feeRateBps : Option ℤ
deriving DecidableEq

/-- Result of the Gamma listing request as seen after the guard
`if not result or isinstance(result, dict) and result.get("error")`:
`failure` covers a `None`/falsy result and an error dict. -/
inductive ListingResult where
  | failure
  | ok (markets : List RawMarket)
deriving DecidableEq

/-- `ASSET_PATTERNS` of the script. -/
def ASSET_PATTERNS : List (String × List String) :=
  [("BTC", ["bitcoin up or down"]),
   ("ETH", ["ethereum up or down"]),
   ("SOL", ["solana up or down"])]

/-- `ASSET_PATTERNS.get(asset, ASSET_PATTERNS["BTC"])`. -/
def patternsFor (asset : String) : List String :=
  (ASSET_PATTERNS.lookup asset).getD ["bitcoin up or down"]

/-- `any(p in q for p in patterns)` with `q = (m.get("question") or
"").lower()`. -/
def questionMatches (asset : String) (m : RawMarket) : Bool :=
  (patternsFor asset).any fun p =>
    strContains (strLower (m.question.getD "")) p

/-- `f"-{window}-" in slug` with `slug = m.get("slug", "")`. -/
def slugMatchesWindow (window : String) (m : RawMarket) : Bool :=
  strContains (m.slug.getD "") ("-" ++ window ++ "-")

/-- `int(m.get("fee_rate_bps") or m.get("feeRateBps") or 0)`: Python
`or` takes the first truthy operand (`None` and `0` are falsy). -/
def feeOf (m : RawMarket) : ℤ :=
  match m.fee_rate_bps with
  | some x =>
    if x = 0 then (match m.feeRateBps with | some y => y | none => 0) else x
  | none => match m.feeRateBps with | some y => y | none => 0

/-- The dict appended to `markets` for one matching listing entry. -/
def toFastMarket (m : RawMarket) (year : ℕ) : FMarketT PyDateTime where
  question := m.question.getD ""
  slug := m.slug.getD ""
  condition_id := m.conditionId.getD ""
  end_time := parse_fast_market_end_time (m.question.getD "") year
  outcomes := m.outcomes
  outcome_prices := m.outcomePrices.getD "[]"
  fee_rate_bps := feeOf m

/-- `discover_fast_market_markets`: return `[]` on a failed listing
request, otherwise keep the entries whose lowercased question contains
an asset pattern, whose slug contains `-{window}-`, that are not
flagged closed and have a non-empty slug; an unparsable question
timestamp leaves `end_time = None` but the market is still returned. -/
def discover_fast_market_markets (asset window : String)
    (listing : ListingResult) (year : ℕ) : List (FMarketT PyDateTime) :=
  match listing with
  | .failure => []
  | .ok ms =>
    ms.filterMap fun m =>
      if questionMatches asset m && slugMatchesWindow window m then
        if !m.closed && !(m.slug.getD "" == "") then
          some (toFastMarket m year)
        else none
      else none

/-- A listed market that matches the BTC keyword and the 5m window tag
but is flagged closed. -/
def closedRawMarket : RawMarket where
  question := some "Bitcoin Up or Down - February 15, 5:30AM-5:35AM ET"
  slug := some "bitcoin-up-or-down-5m-feb-15"
  conditionId := some "0xabc"
  closed := true
  outcomes := ["Up", "Down"]
  outcomePrices := some "[]"
  fee_rate_bps := none
  feeRateBps := none

/-- C7 counterexample: a listed market whose question contains the
asset keyword phrase and whose slug contains the window tag, but which
carries `closed: true`, is dropped by the extra `not closed` check, so
discovery does not return exactly the markets selected by the two
stated text filters. -/
theorem discovery_closed_market_dropped :
    questionMatches "BTC" closedRawMarket = true ∧
    slugMatchesWindow "5m" closedRawMarket = true ∧
    discover_fast_market_markets "BTC" "5m" (.ok [closedRawMarket]) 2026
      = [] := by
  refine ⟨by decide, by decide, by decide⟩

lemma slugMatchesWindow_slug_ne_empty (window : String) (m : RawMarket)
    (h : slugMatchesWindow window m = true) : m.slug.getD "" ≠ "" := by
  intro heq
  rw [slugMatchesWindow, heq] at h
  have hd : ("-" ++ window ++ "-").data = '-' :: (window ++ "-").data := rfl
  rw [strContains, hd] at h
  simp [containsSub, isPrefixL] at h

/-- C7 as amended: discovery returns exactly the listed markets whose
lowercased question contains an asset pattern, whose slug contains the
window tag, and that are not flagged closed (the non-empty-slug check
is implied by the window tag containment); a market whose question
timestamp fails to parse is still returned, with a null expiry; and a
failed or error listing response yields the empty list, not an
exception. -/
theorem discovery_filter_characterization :
    (∀ asset window year,
      discover_fast_market_markets asset window .failure year = [])
    ∧ (∀ asset window year ms e,
        e ∈ discover_fast_market_markets asset window (.ok ms) year →
        ∃ m, m ∈ ms ∧ m.closed = false ∧ questionMatches asset m = true ∧
          slugMatchesWindow window m = true ∧ e = toFastMarket m year)
    ∧ (∀ asset window year ms m, m ∈ ms → m.closed = false →
        questionMatches asset m = true → slugMatchesWindow window m = true →
        toFastMarket m year ∈
          discover_fast_market_markets asset window (.ok ms) year)
    ∧ (∀ asset window year ms m, m ∈ ms → m.closed = false →
        questionMatches asset m = true → slugMatchesWindow window m = true →
        parse_fast_market_end_time (m.question.getD "") year = none →
        (toFastMarket m year).end_time = none ∧
          toFastMarket m year ∈
            discover_fast_market_markets asset window (.ok ms) year) := by
  have hmem : ∀ asset window year (ms : List RawMarket) m, m ∈ ms →
      m.closed = false → questionMatches asset m = true →
      slugMatchesWindow window m = true →
      toFastMarket m year ∈
        discover_fast_market_markets asset window (.ok ms) year := by
    intro asset window year ms m hm hcl hq hw
    simp only [discover_fast_market_markets]
    refine List.mem_filterMap.mpr ⟨m, hm, ?_⟩
    rw [hq, hw]
    have hslug : (m.slug.getD "" == "") = false :=
      beq_eq_false_iff_ne.mpr (slugMatchesWindow_slug_ne_empty window m hw)
    rw [hcl, hslug]
    rfl
  refine ⟨fun _ _ _ => rfl, ?_, hmem, ?_⟩
  · intro asset window year ms e he
    simp only [discover_fast_market_markets] at he
    obtain ⟨m, hm, hf⟩ := List.mem_filterMap.mp he
    split at hf
    · split at hf
      · rename_i hqw hcs
        rw [Bool.and_eq_true] at hqw hcs
        obtain ⟨hq, hw⟩ := hqw
        obtain ⟨hc, _⟩ := hcs
        have hc' : m.closed = false := by
          cases hb : m.closed
          · rfl
          · rw [hb] at hc; simp at hc
        exact ⟨m, hm, hc', hq, hw, (Option.some.inj hf).symm⟩
      · cases hf
    · cases hf
  · intro asset window year ms m hm hcl hq hw hparse
    refine ⟨?_, hmem asset window year ms m hm hcl hq hw⟩
    simp only [toFastMarket, hparse]

/-- The same listed market but open: it is returned by discovery. -/
def openRawMarket : RawMarket where
  question := some "Bitcoin Up or Down - February 15, 5:30AM-5:35AM ET"
  slug := some "bitcoin-up-or-down-5m-feb-15"
  conditionId := some "0xabc"
  closed := false
  outcomes := ["Up", "Down"]
  outcomePrices := some "[]"
  fee_rate_bps := none
  feeRateBps := none

/-- Witness for C7 (amended): the open market that matches both text
filters is returned by discovery. -/
theorem discovery_filter_characterization_witness :
    toFastMarket openRawMarket 2026 ∈
      discover_fast_market_markets "BTC" "5m" (.ok [openRawMarket]) 2026 :=
  discovery_filter_characterization.2.2.1 "BTC" "5m" 2026 [openRawMarket]
    openRawMarket (by decide) (by decide) (by decide) (by decide)

end FastLoop
